import Mathlib

/-!
Verification of the four game simulation engines of the Mini-Games
Collection repository (Tetris, Cards/memory-match, Tanks, Snake) and of
the persistence-store access pattern.

Each definition below is a shallow embedding of the corresponding
TypeScript function from the source tree; machine randomness
(Math.random) is modelled by explicit oracle parameters (lists or
streams of pre-drawn values), and React state updates are modelled as
pure state transformers.  Definitions come first, followed by the
theorems.
-/

namespace MiniGames

namespace Tetris

/-- Board columns, from `const COLS = 10` in Tetris.tsx. -/
def COLS : Nat := 10

/-- Board rows, from `const ROWS = 20` in Tetris.tsx. -/
def ROWS : Nat := 20

/-- The seven canonical tetromino shapes (I, O, T, S, Z, J, L), from the
`SHAPES` array in Tetris.tsx. -/
def SHAPES : List (List (List Nat)) :=
  [ [[1, 1, 1, 1]],
    [[1, 1],
     [1, 1]],
    [[0, 1, 0],
     [1, 1, 1]],
    [[0, 1, 1],
     [1, 1, 0]],
    [[1, 1, 0],
     [0, 1, 1]],
    [[1, 0, 0],
     [1, 1, 1]],
    [[0, 0, 1],
     [1, 1, 1]] ]

/-- Clockwise rotation of a shape matrix, from `rotate` in Tetris.tsx:
the result has `cols` rows and `rows` columns and satisfies
`res[c][rows - 1 - r] = shape[r][c]`; equivalently row `c`, entry `j`
of the result is `shape[rows - 1 - j][c]`. -/
def rotate (shape : List (List Nat)) : List (List Nat) :=
  let rows := shape.length
  let cols := (shape.headD []).length
  (List.range cols).map (fun c =>
    (List.range rows).map (fun j => ((shape.getD (rows - 1 - j) [])).getD c 0))

/-- Well-formed shape matrix: nonempty, with all rows of one positive
common length (the length of the first row, which is what the source
reads as `shape[0].length`). -/
@[reducible]
def WF (shape : List (List Nat)) : Prop :=
  shape ≠ [] ∧ 0 < (shape.headD []).length ∧
    ∀ row ∈ shape, row.length = (shape.headD []).length

/-- Matrix entry read with the source's defaulting behaviour:
`(s.getD r []).getD c 0` models reading `s[r][c]` on a 0/1 shape matrix. -/
def entry (s : List (List Nat)) (r c : Nat) : Nat := (s.getD r []).getD c 0

/-- A completed row: every cell nonzero, from
`row.every((v) => v !== 0)` in `clearLines`. -/
def isFull (row : List Nat) : Bool := row.all (fun v => decide (v ≠ 0))

/-- An empty board row of `COLS` zero cells, from `Array(COLS).fill(0)`. -/
def emptyRow : List Nat := List.replicate COLS 0

/-- Line clearing, from `clearLines` in Tetris.tsx: drop every completed
row, count them, and unshift empty rows at the top until the board has
`ROWS` rows again. -/
def clearLines (b : List (List Nat)) : (List (List Nat)) × Nat :=
  let kept := b.filter (fun row => !(isFull row))
  let linesCleared := b.length - kept.length
  (List.replicate (ROWS - kept.length) emptyRow ++ kept, linesCleared)

/-- Score / line / level statistics, from `interface TetrisStats`. -/
structure Stats where
  score : Nat
  lines : Nat
  level : Nat
deriving DecidableEq, Repr

/-- Points awarded per simultaneous line count, from
`const pointsPerLines = [0, 100, 300, 500, 800]`. -/
def pointsPerLines : List Nat := [0, 100, 300, 500, 800]

/-- Scoring and levelling after a lock, from `addScoreAndLevel` in
Tetris.tsx: no-op on zero lines, otherwise add the table points and
recompute `level = min(10, 1 + floor(newLines / 10))`. -/
def addScoreAndLevel (s : Stats) (lines : Nat) : Stats :=
  if lines = 0 then s
  else
    let newLines := s.lines + lines
    { score := s.score + pointsPerLines.getD lines 0
      lines := newLines
      level := min 10 (1 + newLines / 10) }

/-- Example board for C2: one incomplete row, one fully-filled row, one
more incomplete row, and seventeen empty rows. -/
def exampleBoard : List (List Nat) :=
  [[2, 0, 0, 0, 0, 0, 0, 0, 0, 0],
   List.replicate 10 1,
   [3, 3, 3, 3, 3, 3, 3, 3, 3, 0]] ++ List.replicate 17 emptyRow

end Tetris

namespace Cards

/-- A card, from `interface CardItem` in Cards.tsx. -/
structure CardItem where
  id : Nat
  value : Nat
  matched : Bool
  flipped : Bool
deriving DecidableEq, Repr

/-- One in-place swap `[a[i], a[j]] = [a[j], a[i]]` of the Fisher-Yates
loop body in `shuffle`; out-of-range indices leave the list unchanged
(unreachable in the source, where both indices are always in range). -/
def swapL {α : Type} (a : List α) (i j : Nat) : List α :=
  match a[i]?, a[j]? with
  | Option.some x, Option.some y => (a.set i y).set j x
  | _, _ => a

/-- The Fisher-Yates loop `for (let i = n - 1; i > 0; i--)` of `shuffle`:
the fuel argument is the current loop index `i`, and `js i % (i + 1)`
models the uniform draw `Math.floor(Math.random() * (i + 1))`. -/
def fyAux {α : Type} (js : Nat → Nat) : List α → Nat → List α
  | a, 0 => a
  | a, i + 1 => fyAux js (swapL a (i + 1) (js (i + 1) % (i + 2))) i

/-- Fisher-Yates shuffle, from `shuffle` in Cards.tsx, with the random
draws provided by the oracle stream `js`. -/
def shuffle {α : Type} (a : List α) (js : Nat → Nat) : List α :=
  fyAux js a (a.length - 1)

/-- The pair values `1..count`, from
`Array.from({length: count}, (_, i) => i + 1)` in `makeDeckFor`. -/
def baseValues (count : Nat) : List Nat := (List.range count).map (fun i => i + 1)

/-- Deck generation, from `makeDeckFor` in Cards.tsx: shuffle two copies
of the values `1..count` and attach ids `1..2*count` with both flags
cleared. -/
def makeDeckFor (count : Nat) (js : Nat → Nat) : List CardItem :=
  ((shuffle (baseValues count ++ baseValues count) js).enum).map
    (fun p => { id := p.1 + 1, value := p.2, matched := false, flipped := false })

/-- A card that is face up but not yet matched, the
`c.flipped && !c.matched` filter used throughout Cards.tsx. -/
def pending (c : CardItem) : Bool := c.flipped && !c.matched

/-- Number of flipped-and-unmatched cards, the
`filter((c) => c.flipped && !c.matched).length` count of Cards.tsx. -/
def flipCount (deck : List CardItem) : Nat := (deck.filter pending).length

/-- Flip the card with the given id face up, from the
`prev.map((c) => (c.id === id ? { ...c, flipped: true } : c))` update. -/
def flipOne (id : Nat) (c : CardItem) : CardItem :=
  if c.id = id then { c with flipped := true } else c

/-- The part of the Cards page state that `handleFlip` consults:
the deck, the synchronous busy lock (`busyRef.current`/`busy`), and the
running flag. -/
structure CardsState where
  deck : List CardItem
  busy : Bool
  running : Bool
deriving DecidableEq, Repr

/-- Flip handler, from `handleFlip` in Cards.tsx: rejected when busy or
not running; rejected when the target card is missing, already flipped,
or matched; otherwise flips the card and raises the busy lock as soon
as two unmatched cards are face up. -/
def handleFlip (st : CardsState) (id : Nat) : CardsState :=
  if st.busy || !st.running then st
  else
    match st.deck.find? (fun c => c.id == id) with
    | Option.none => st
    | Option.some card =>
      if card.flipped || card.matched then st
      else
        let next := st.deck.map (flipOne id)
        { st with deck := next
                  busy := if flipCount next = 2 then true else st.busy }

/-- Invariant tying the busy lock to the number of pending cards: at
most two cards are flipped-and-unmatched, and whenever two are, the
busy lock is raised. -/
@[reducible]
def CardsInv (st : CardsState) : Prop :=
  flipCount st.deck ≤ 2 ∧ (flipCount st.deck = 2 → st.busy = true)

/-- Per-card action of the pair-resolution timeout in Cards.tsx: on a
match the two cards become `matched`, on a mismatch they are turned
face down again; other cards are untouched. -/
def resolveCard (id1 id2 : Nat) (isMatch : Bool) (c : CardItem) : CardItem :=
  if isMatch && (c.id == id1 || c.id == id2) then { c with matched := true }
  else if !isMatch && (c.id == id1 || c.id == id2) then { c with flipped := false }
  else c

/-- Pair resolution, from the `setTimeout` body of the pair-resolution
effect in Cards.tsx: compare the two cards' values and map
`resolveCard` over the deck.  The source looks the two cards up with a
non-null assertion; a missing id leaves the deck unchanged here
(unreachable in the source). -/
def resolvePair (deck : List CardItem) (id1 id2 : Nat) : List CardItem :=
  match deck.find? (fun c => c.id == id1), deck.find? (fun c => c.id == id2) with
  | Option.some a, Option.some b =>
      deck.map (resolveCard id1 id2 (a.value == b.value))
  | _, _ => deck

end Cards

namespace Tanks

/-- Terrain cell, from `type CellType` in Tanks.tsx. -/
inductive Cell
  | empty
  | brick
  | steel
  | base
deriving DecidableEq, Repr

/-- Faction, the `'player' | 'enemy'` side of tanks and bullets. -/
inductive Side
  | player
  | enemy
deriving DecidableEq, Repr

/-- Facing direction, from `type Direction` in Tanks.tsx. -/
inductive Dir4
  | up
  | right
  | down
  | left
deriving DecidableEq, Repr

/-- A tank, from `interface Tank` (string ids modelled as naturals). -/
structure Tank where
  id : Nat
  x : Int
  y : Int
  dir : Dir4
  side : Side
  alive : Bool
deriving DecidableEq, Repr

/-- A bullet, from `interface Bullet`. -/
structure Bullet where
  id : Nat
  x : Int
  y : Int
  dir : Dir4
  owner : Side
  active : Bool
deriving DecidableEq, Repr

/-- Power-up kind, from `PowerUp['kind']`. -/
inductive PUpKind
  | shield
  | rapid
deriving DecidableEq, Repr

/-- A dropped power-up, from `interface PowerUp`. -/
structure PUp where
  id : Nat
  x : Int
  y : Int
  kind : PUpKind
deriving DecidableEq, Repr

/-- Grid size, from `const GRID = 15`. -/
def GRID : Nat := 15

/-- Direction to coordinate delta, from `dirDelta` in Tanks.tsx. -/
def dirDelta (d : Dir4) : Int × Int :=
  match d with
  | Dir4.up => (0, -1)
  | Dir4.right => (1, 0)
  | Dir4.down => (0, 1)
  | Dir4.left => (-1, 0)

/-- The game state read and written by `damageAt`: terrain, tanks, the
panel state (score, lives, level, kills, running, paused), the player's
shield charge, and dropped power-ups.  The deferred (setTimeout)
respawn-or-game-over step after a player death is asynchronous in the
source and is not part of this synchronous transformer. -/
structure TanksState where
  terrain : List (List Cell)
  tanks : List Tank
  score : Nat
  lives : Nat
  level : Nat
  kills : Nat
  running : Bool
  paused : Bool
  shield : Nat
  powerUps : List PUp
deriving DecidableEq, Repr

/-- Result of a bullet resolution, the `'blocked' | 'hit' | 'none'`
return value of `damageAt` (`none` renamed to `miss`). -/
inductive DRes
  | blocked
  | hit
  | miss
deriving DecidableEq, Repr

/-- Terrain lookup `terrainRef.current[y][x]` (bounds are always checked
before this read in the source). -/
def cellAt (st : TanksState) (x y : Int) : Cell :=
  (st.terrain.getD y.toNat []).getD x.toNat Cell.empty

/-- Brick destruction `next[y][x] = 'empty'` of `damageAt`. -/
def clearCell (st : TanksState) (x y : Int) : List (List Cell) :=
  st.terrain.set y.toNat ((st.terrain.getD y.toNat []).set x.toNat Cell.empty)

/-- Mark the tank with the given id dead, from the
`prev.map((t) => (t.id === target.id ? { ...t, alive: false } : t))`
update in `damageAt`. -/
def killTank (tanks : List Tank) (tid : Nat) : List Tank :=
  tanks.map (fun t => if t.id = tid then { t with alive := false } else t)

/-- Bullet impact resolution, from `damageAt` in Tanks.tsx.  The checks
run in source order: bounds, steel, brick, base, then tank hit with
friendly-fire immunity, player shield, and kill handling.  The 35%
power-up roll of `dropPowerUp` is provided as the oracle `drop`
(`none` models a failed roll) and `puid` is the fresh power-up id. -/
def damageAt (st : TanksState) (x y : Int) (owner : Side)
    (drop : Option PUpKind) (puid : Nat) : DRes × TanksState :=
  if x < 0 ∨ (GRID : Int) ≤ x ∨ y < 0 ∨ (GRID : Int) ≤ y then (DRes.blocked, st)
  else
    match cellAt st x y with
    | Cell.steel => (DRes.blocked, st)
    | Cell.brick => (DRes.hit, { st with terrain := clearCell st x y })
    | Cell.base => (DRes.hit, { st with running := false, paused := false })
    | Cell.empty =>
      match st.tanks.find? (fun t => t.alive && t.x == x && t.y == y) with
      | Option.none => (DRes.miss, st)
      | Option.some target =>
        if (owner = Side.enemy ∧ target.side = Side.enemy) ∨
            (owner = Side.player ∧ target.side = Side.player) then
          (DRes.blocked, st)
        else if target.side = Side.player ∧ 0 < st.shield then
          (DRes.hit, { st with shield := st.shield - 1 })
        else
          let st2 := { st with tanks := killTank st.tanks target.id }
          if target.side = Side.enemy then
            (DRes.hit, { st2 with
              score := st2.score + 100
              kills := st2.kills + 1
              powerUps :=
                match drop with
                | Option.none => st2.powerUps
                | Option.some k => st2.powerUps ++ [{ id := puid, x := x, y := y, kind := k }] })
          else
            (DRes.hit, { st2 with lives := st2.lives - 1 })

/-- One bullet advance of the tick's bullet loop in Tanks.tsx: move one
cell in the bullet's direction, resolve with `damageAt`, and keep the
bullet only when the result is `miss` (`blocked` and `hit` both destroy
it). -/
def stepBullet (st : TanksState) (b : Bullet) (drop : Option PUpKind)
    (puid : Nat) : TanksState × Option Bullet :=
  let d := dirDelta b.dir
  let nx := b.x + d.1
  let ny := b.y + d.2
  let res := damageAt st nx ny b.owner drop puid
  match res.1 with
  | DRes.miss => (res.2, Option.some { b with x := nx, y := ny })
  | _ => (res.2, Option.none)

end Tanks

namespace Snake

/-- A grid point, from `interface Point` in Snake.tsx. -/
structure Pt where
  x : Int
  y : Int
deriving DecidableEq, Repr

/-- Game phase, from `type GameStatus` in Snake.tsx. -/
inductive SStatus
  | idle
  | countdown
  | running
  | paused
  | ended
deriving DecidableEq, Repr

/-- Movement direction, from `type GameDir` in Snake.tsx. -/
inductive GDir
  | up
  | down
  | left
  | right
deriving DecidableEq, Repr

/-- Grid size, from `const GRID = 18`. -/
def GRID : Nat := 18

/-- Direction to coordinate delta, from `delta` in Snake.tsx. -/
def delta (d : GDir) : Pt :=
  match d with
  | GDir.up => { x := 0, y := -1 }
  | GDir.down => { x := 0, y := 1 }
  | GDir.left => { x := -1, y := 0 }
  | GDir.right => { x := 1, y := 0 }

/-- The Snake page state driving the main loop: status machine, buffered
direction, snake segments (head first), food position, score. -/
structure SnakeState where
  status : SStatus
  dir : GDir
  snake : List Pt
  food : Pt
  score : Nat
deriving DecidableEq, Repr

/-- A point is inside the 18x18 grid. -/
@[reducible]
def inGrid (p : Pt) : Prop :=
  0 ≤ p.x ∧ p.x < (GRID : Int) ∧ 0 ≤ p.y ∧ p.y < (GRID : Int)

/-- Convert one random draw `(floor(random*GRID), floor(random*GRID))`
to a point; each coordinate is uniform over `0..GRID-1` by
construction, as in `randomFood`. -/
def mkPt (d : Fin 18 × Fin 18) : Pt := { x := (d.1.val : Int), y := (d.2.val : Int) }

/-- Food relocation, from `randomFood` in Snake.tsx: draw random grid
cells until one is not occupied by the snake.  The source's rejection
loop is modelled by a list of pre-drawn candidates; `none` means every
candidate was occupied (the source would keep drawing). -/
def randomFood (draws : List (Fin 18 × Fin 18)) (used : List Pt) : Option Pt :=
  (draws.map mkPt).find? (fun p => !(used.contains p))

/-- The head's next cell, `{x: head.x + d.x, y: head.y + d.y}` of the
main loop (defaulting to the origin for an empty snake, which the
source never produces). -/
def nextHead (st : SnakeState) : Pt :=
  { x := (st.snake.headD { x := 0, y := 0 }).x + (delta st.dir).x
    y := (st.snake.headD { x := 0, y := 0 }).y + (delta st.dir).y }

/-- One tick of the Snake main loop (the `setSnake` updater of the
`setInterval` body in Snake.tsx), which only runs while the status is
`running`: compute the next head; on wall or body collision transition
to `ended` leaving the snake untouched; on food, prepend the head, keep
the tail, add 10 points and relocate the food (`getD st.food` covers
the exhausted-oracle case, unreachable in the source's endless loop);
otherwise prepend the head and pop the tail. -/
def snakeTick (st : SnakeState) (draws : List (Fin 18 × Fin 18)) : SnakeState :=
  if st.status = SStatus.running then
    match st.snake with
    | [] => st
    | _ :: _ =>
      let np := nextHead st
      if np.x < 0 ∨ (GRID : Int) ≤ np.x ∨ np.y < 0 ∨ (GRID : Int) ≤ np.y ∨
          st.snake.contains np then
        { st with status := SStatus.ended }
      else
        let next := np :: st.snake
        if np = st.food then
          { st with snake := next
                    score := st.score + 10
                    food := (randomFood draws next).getD st.food }
        else
          { st with snake := next.dropLast }
  else st

/-- Initial snake, from `initialSnake` in Snake.tsx. -/
def initialSnake : List Pt :=
  [{ x := 3, y := 3 }, { x := 2, y := 3 }, { x := 1, y := 3 }]

/-- Freshly reset page state (`reset` in Snake.tsx), with the food at an
arbitrary position produced by the initial `randomFood` call. -/
def initState (food : Pt) : SnakeState :=
  { status := SStatus.idle
    dir := GDir.right
    snake := initialSnake
    food := food
    score := 0 }

/-- States reachable from a reset by ticks, buffered direction changes,
and status transitions (start, countdown expiry, pause, resume, end). -/
inductive Reach : SnakeState → Prop
  | init : ∀ food, Reach (initState food)
  | tick : ∀ st draws, Reach st → Reach (snakeTick st draws)
  | setDir : ∀ st d, Reach st → Reach { st with dir := d }
  | setStatus : ∀ st s, Reach st → Reach { st with status := s }

/-- Snake body invariant: nonempty, pairwise-distinct segments, all
inside the grid. -/
@[reducible]
def snakeInv (st : SnakeState) : Prop :=
  st.snake ≠ [] ∧ st.snake.Nodup ∧ ∀ p ∈ st.snake, inGrid p

end Snake

namespace Storage

/-- The browser's localStorage as seen by the games: a key-value store
whose every access throws when storage is unavailable (`ok = false`),
as with disabled third-party storage. -/
structure Store where
  ok : Bool
  val : String → Option String

/-- `localStorage.getItem`: returns the stored string or null, or
throws when storage is unavailable. -/
def getItem (s : Store) (key : String) : Except Unit (Option String) :=
  if s.ok then Except.ok (s.val key) else Except.error ()

/-- `localStorage.setItem`: stores the string, or throws when storage
is unavailable. -/
def setItem (s : Store) (key v : String) : Except Unit Store :=
  if s.ok then
    Except.ok { s with val := fun k => if k = key then Option.some v else s.val k }
  else Except.error ()

/-- The `'moves'` best-score kind of Cards.tsx. -/
def movesKind : String := "moves"

/-- Best-score key, from `bestKey` in Cards.tsx. -/
def bestKey (pairs : Nat) (kind : String) : String :=
  "cards_best_" ++ toString pairs ++ "_" ++ kind

/-- The `Number(x || 0)` conversion applied to a nullable stored
string. -/
def toNumber (v : Option String) : Nat :=
  match v with
  | Option.none => 0
  | Option.some str => (str.toNat?).getD 0

/-- Best-moves read at mount, from
`Number(localStorage.getItem(bestKey(pairs, 'moves')) || 0)` in
Cards.tsx — executed with NO try/catch, so an unavailable store makes
the whole read throw. -/
def cardsBestMovesRead (s : Store) (pairs : Nat) : Except Unit Nat :=
  (getItem s (bestKey pairs movesKind)).map toNumber

/-- Best-moves write on win, from
`localStorage.setItem(bestKey(pairs, 'moves'), String(moves))` in the
all-matched effect of Cards.tsx — also executed with NO try/catch. -/
def cardsBestMovesWrite (s : Store) (pairs moves : Nat) : Except Unit Store :=
  setItem s (bestKey pairs movesKind) (toString moves)

/-- The `'tanks_comfort'` preference key of Tanks.tsx. -/
def tanksComfortKey : String := "tanks_comfort"

/-- Comfort-toggle persistence effect of Tanks.tsx, which wraps
`localStorage.setItem('tanks_comfort', ...)` in try/catch: a throwing
store degrades to a no-op. -/
def tanksComfortWrite (s : Store) (comfort : Bool) : Store :=
  match setItem s tanksComfortKey (toString comfort) with
  | Except.ok s2 => s2
  | Except.error _ => s

/-- Comfort-toggle read in the `useState` initializer of Tanks.tsx
(`localStorage.getItem('tanks_comfort')`), executed with NO try/catch. -/
def tanksComfortRead (s : Store) : Except Unit Bool :=
  (getItem s tanksComfortKey).map (fun v =>
    match v with
    | Option.none => true
    | Option.some str => str == "true")

/-- A store whose every access throws (unavailable storage). -/
def throwingStore : Store := { ok := false, val := fun _ => Option.none }

end Storage

namespace Tetris

theorem rotate_length (s : List (List Nat)) :
    (rotate s).length = (s.headD []).length := by
  simp [rotate]

theorem rotate_row_length (s : List (List Nat)) {row : List Nat}
    (h : row ∈ rotate s) : row.length = s.length := by
  simp only [rotate, List.mem_map, List.mem_range] at h
  obtain ⟨c, _, rfl⟩ := h
  simp

theorem rotate_headD_length (s : List (List Nat))
    (hC : 0 < (s.headD []).length) : ((rotate s).headD []).length = s.length := by
  obtain ⟨n, hn⟩ : ∃ n, (s.headD []).length = n + 1 :=
    ⟨(s.headD []).length - 1, by omega⟩
  simp only [rotate]
  rw [hn]
  simp [List.range_succ_eq_map]

theorem rotate_entry (s : List (List Nat)) {r c : Nat}
    (hr : r < s.length) (hc : c < (s.headD []).length) :
    entry (rotate s) c (s.length - 1 - r) = entry s r c := by
  have h1 : s.length - 1 - (s.length - 1 - r) = r := by omega
  have h2 : s.length - 1 - r < s.length := by omega
  have hc2 : c < (s.head?.getD []).length := by simpa using hc
  simp [entry, rotate, List.getD_eq_getElem?_getD, List.getElem?_eq_getElem,
    hc2, h2, h1, hr]

theorem WF_rotate (s : List (List Nat)) (h : WF s) : WF (rotate s) := by
  obtain ⟨hne, hC, hrows⟩ := h
  have hR : 0 < s.length := List.length_pos.mpr hne
  refine ⟨?_, ?_, ?_⟩
  · apply List.length_pos.mp
    rw [rotate_length s]
    exact hC
  · rw [rotate_headD_length s hC]
    exact hR
  · intro row hrow
    rw [rotate_row_length s hrow, rotate_headD_length s hC]

theorem rot4_entry (s : List (List Nat)) (h : WF s) {r c : Nat}
    (hr : r < s.length) (hc : c < (s.headD []).length) :
    entry (rotate (rotate (rotate (rotate s)))) r c = entry s r c := by
  obtain ⟨hne, hC, hrows⟩ := h
  have hR : 0 < s.length := List.length_pos.mpr hne
  have e1 := rotate_entry s hr hc
  have len1 : (rotate s).length = (s.headD []).length := rotate_length s
  have hd1 : ((rotate s).headD []).length = s.length := rotate_headD_length s hC
  have e2 := rotate_entry (rotate s) (r := c) (c := s.length - 1 - r)
    (by omega) (by omega)
  rw [len1] at e2
  have len2 : (rotate (rotate s)).length = s.length := by
    rw [rotate_length (rotate s), hd1]
  have hd2 : ((rotate (rotate s)).headD []).length = (s.headD []).length := by
    rw [rotate_headD_length (rotate s) (by omega), len1]
  have e3 := rotate_entry (rotate (rotate s)) (r := s.length - 1 - r)
    (c := (s.headD []).length - 1 - c) (by omega) (by omega)
  rw [len2] at e3
  have h3 : s.length - 1 - (s.length - 1 - r) = r := by omega
  rw [h3] at e3
  have len3 : (rotate (rotate (rotate s))).length = (s.headD []).length := by
    rw [rotate_length (rotate (rotate s)), hd2]
  have hd3 : ((rotate (rotate (rotate s))).headD []).length = s.length := by
    rw [rotate_headD_length (rotate (rotate s)) (by omega), len2]
  have e4 := rotate_entry (rotate (rotate (rotate s)))
    (r := (s.headD []).length - 1 - c) (c := r) (by omega) (by omega)
  rw [len3] at e4
  have h4 : (s.headD []).length - 1 - ((s.headD []).length - 1 - c) = c := by omega
  rw [h4] at e4
  rw [e4, e3, e2, e1]

theorem entry_eq_get (t : List (List Nat)) {r c : Nat} (hr : r < t.length)
    (hc : c < (t.get ⟨r, hr⟩).length) :
    entry t r c = (t.get ⟨r, hr⟩).get ⟨c, hc⟩ := by
  have hc2 : c < t[r].length := by simpa using hc
  simp [entry, List.getD_eq_getElem?_getD, List.getElem?_eq_getElem, hr, hc2]

theorem rot4_eq (s : List (List Nat)) (h : WF s) :
    rotate (rotate (rotate (rotate s))) = s := by
  obtain ⟨hne, hC, hrows⟩ := h
  have hR : 0 < s.length := List.length_pos.mpr hne
  have len1 : (rotate s).length = (s.headD []).length := rotate_length s
  have hd1 : ((rotate s).headD []).length = s.length := rotate_headD_length s hC
  have len2 : (rotate (rotate s)).length = s.length := by
    rw [rotate_length (rotate s), hd1]
  have hd2 : ((rotate (rotate s)).headD []).length = (s.headD []).length := by
    rw [rotate_headD_length (rotate s) (by omega), len1]
  have len3 : (rotate (rotate (rotate s))).length = (s.headD []).length := by
    rw [rotate_length (rotate (rotate s)), hd2]
  have hd3 : ((rotate (rotate (rotate s))).headD []).length = s.length := by
    rw [rotate_headD_length (rotate (rotate s)) (by omega), len2]
  have len4 : (rotate (rotate (rotate (rotate s)))).length = s.length := by
    rw [rotate_length (rotate (rotate (rotate s))), hd3]
  apply List.ext_getElem (by rw [len4])
  intro n h₁ h₂
  have hrowlen : (rotate (rotate (rotate (rotate s))))[n].length =
      (s.headD []).length := by
    rw [rotate_row_length (rotate (rotate (rotate s))) (List.getElem_mem h₁), len3]
  have hslen : s[n].length = (s.headD []).length :=
    hrows _ (List.getElem_mem h₂)
  apply List.ext_getElem (by rw [hrowlen, hslen])
  intro m m₁ m₂
  have hm : m < (s.headD []).length := by rw [hrowlen] at m₁; exact m₁
  have hn : n < s.length := h₂
  have := rot4_entry s ⟨hne, hC, hrows⟩ hn hm
  rw [entry_eq_get _ h₁ (by simpa using m₁), entry_eq_get s h₂ (by simpa using m₂)] at this
  simpa using this

/-- C1: the Tetris `rotate` function computes the clockwise 90-degree
transpose-and-reverse rotation — for a shape with `R` rows and `C`
columns, `result[c][R-1-r] = shape[r][c]` — and applying `rotate` four
times in succession returns the original shape, both for every
well-formed shape matrix and in particular for each of the 7 canonical
tetromino shapes. -/
theorem c1_rotate_spec :
    (∀ shape : List (List Nat), ∀ r c : Nat, r < shape.length →
        c < (shape.headD []).length →
        entry (rotate shape) c (shape.length - 1 - r) = entry shape r c) ∧
    (∀ shape : List (List Nat), WF shape →
        rotate (rotate (rotate (rotate shape))) = shape) ∧
    (∀ shape ∈ SHAPES, rotate (rotate (rotate (rotate shape))) = shape) := by
  refine ⟨?_, ?_, ?_⟩
  · intro shape r c hr hc
    exact rotate_entry shape hr hc
  · intro shape h
    exact rot4_eq shape h
  · decide

/-- Witness for C1 at the T piece: the rotation entry equation holds at
row 0, column 0, and four rotations restore the shape. -/
theorem c1_rotate_spec_witness :
    entry (rotate [[0, 1, 0], [1, 1, 1]]) 0 1 = entry [[0, 1, 0], [1, 1, 1]] 0 0 ∧
    rotate (rotate (rotate (rotate [[0, 1, 0], [1, 1, 1]]))) =
      [[0, 1, 0], [1, 1, 1]] := by
  constructor
  · exact c1_rotate_spec.1 [[0, 1, 0], [1, 1, 1]] 0 0 (by decide) (by decide)
  · exact c1_rotate_spec.2.1 [[0, 1, 0], [1, 1, 1]] (by decide)

theorem kept_length (b : List (List Nat)) :
    (b.filter (fun row => !(isFull row))).length = b.length - b.countP isFull := by
  induction b with
  | nil => rfl
  | cons r t ih =>
    have hle : t.countP isFull ≤ t.length := List.countP_le_length _
    by_cases h : isFull r <;>
      (simp [List.filter_cons, List.countP_cons, h, ih]; try omega)

/-- C2: `clearLines` removes exactly the completed rows (kept rows keep
their relative order), backfills empty rows at the top so a 20x10 board
stays 20x10, and reports the number of cleared rows; `addScoreAndLevel`
awards 100/300/500/800 points for 1/2/3/4 simultaneous lines and sets
`level = min(10, 1 + totalLines/10)`; on the example board with one
incomplete and one full row, exactly the full row is removed, one empty
row is inserted on top, and the score rises by exactly 100. -/
theorem c2_clearLines_spec :
    (∀ b : List (List Nat), b.length = ROWS → (∀ row ∈ b, row.length = COLS) →
      (clearLines b).1 = List.replicate (b.countP isFull) emptyRow
          ++ b.filter (fun row => !(isFull row)) ∧
      (clearLines b).2 = b.countP isFull ∧
      (clearLines b).1.length = ROWS ∧
      (∀ row ∈ (clearLines b).1, row.length = COLS)) ∧
    (∀ s : Stats,
      (addScoreAndLevel s 1).score = s.score + 100 ∧
      (addScoreAndLevel s 2).score = s.score + 300 ∧
      (addScoreAndLevel s 3).score = s.score + 500 ∧
      (addScoreAndLevel s 4).score = s.score + 800 ∧
      (∀ n : Nat, n ≠ 0 → (addScoreAndLevel s n).lines = s.lines + n ∧
        (addScoreAndLevel s n).level = min 10 (1 + (s.lines + n) / 10))) ∧
    ((clearLines exampleBoard).1 =
        [emptyRow, [2, 0, 0, 0, 0, 0, 0, 0, 0, 0],
         [3, 3, 3, 3, 3, 3, 3, 3, 3, 0]] ++ List.replicate 17 emptyRow ∧
      (clearLines exampleBoard).2 = 1 ∧
      (∀ s : Stats, (addScoreAndLevel s (clearLines exampleBoard).2).score =
        s.score + 100)) := by
  refine ⟨?_, ?_, ?_, ?_, ?_⟩
  · intro b hlen hrows
    have hc : b.countP isFull ≤ b.length := List.countP_le_length _
    have hk := kept_length b
    refine ⟨?_, ?_, ?_, ?_⟩
    · simp only [clearLines]
      congr 1
      rw [hk, hlen]
      congr 1
      omega
    · simp only [clearLines]
      omega
    · simp only [clearLines, List.length_append, List.length_replicate]
      omega
    · intro row hrow
      simp only [clearLines, List.mem_append] at hrow
      rcases hrow with h | h
      · rw [List.eq_of_mem_replicate h]
        simp [emptyRow]
      · exact hrows row (List.mem_of_mem_filter h)
  · intro s
    refine ⟨rfl, rfl, rfl, rfl, ?_⟩
    intro n hn
    simp [addScoreAndLevel, hn]
  · decide
  · decide
  · intro s
    have h1 : (clearLines exampleBoard).2 = 1 := by decide
    rw [h1]
    simp [addScoreAndLevel, pointsPerLines]

/-- Witness for C2: the general clearing and scoring facts instantiated
on the concrete example board and concrete statistics. -/
theorem c2_clearLines_spec_witness :
    (clearLines exampleBoard).1.length = ROWS ∧
    (addScoreAndLevel { score := 0, lines := 0, level := 1 } 1).score = 0 + 100 ∧
    (addScoreAndLevel { score := 0, lines := 9, level := 1 } 1).level =
      min 10 (1 + (9 + 1) / 10) := by
  refine ⟨?_, ?_, ?_⟩
  · exact (c2_clearLines_spec.1 exampleBoard (by decide) (by decide)).2.2.1
  · exact (c2_clearLines_spec.2.1 { score := 0, lines := 0, level := 1 }).1
  · exact ((c2_clearLines_spec.2.1
      { score := 0, lines := 9, level := 1 }).2.2.2.2 1 (by decide)).2

end Tetris

namespace Cards

theorem count_set {α : Type} [DecidableEq α] (v : α) (a : List α) (i : Nat)
    (x : α) (h : i < a.length) :
    (a.set i x).count v + (if v = a.get ⟨i, h⟩ then 1 else 0)
      = a.count v + (if v = x then 1 else 0) := by
  rw [List.set_eq_take_cons_drop x h]
  conv_rhs => rw [← List.take_append_drop i a, List.drop_eq_getElem_cons h]
  simp only [List.count_append, List.count_cons, List.get_eq_getElem, beq_iff_eq]
  by_cases h1 : v = x <;> by_cases h2 : v = a[i] <;>
    simp [h1, h2, eq_comm] <;> omega

theorem length_swapL {α : Type} (a : List α) (i j : Nat) :
    (swapL a i j).length = a.length := by
  unfold swapL
  rcases h1 : a[i]? with _ | x <;> rcases h2 : a[j]? with _ | y <;> simp

theorem count_swapL {α : Type} [DecidableEq α] (v : α) (a : List α) (i j : Nat) :
    (swapL a i j).count v = a.count v := by
  unfold swapL
  rcases h1 : a[i]? with _ | x <;> rcases h2 : a[j]? with _ | y <;> try simp
  have hi : i < a.length := by
    by_contra hc
    rw [List.getElem?_eq_none (by omega)] at h1
    exact Option.noConfusion h1
  have hj : j < a.length := by
    by_contra hc
    rw [List.getElem?_eq_none (by omega)] at h2
    exact Option.noConfusion h2
  have hx : a.get ⟨i, hi⟩ = x := by
    have := List.getElem?_eq_getElem hi
    rw [h1] at this
    simpa using this.symm
  have hy : a.get ⟨j, hj⟩ = y := by
    have := List.getElem?_eq_getElem hj
    rw [h2] at this
    simpa using this.symm
  have hj2 : j < (a.set i y).length := by simpa using hj
  have e1 := count_set v a i y hi
  have e2 := count_set v (a.set i y) j x hj2
  rw [hx] at e1
  by_cases hij : i = j
  · subst hij
    have : (a.set i y).get ⟨i, hj2⟩ = y := by simp
    rw [this] at e2
    omega
  · have : (a.set i y).get ⟨j, hj2⟩ = a.get ⟨j, hj⟩ := by
      simp [List.getElem_set_ne hij]
    rw [this, hy] at e2
    omega

theorem count_fyAux {α : Type} [DecidableEq α] (v : α) (js : Nat → Nat) :
    ∀ (a : List α) (n : Nat), (fyAux js a n).count v = a.count v := by
  intro a n
  induction n generalizing a with
  | zero => rfl
  | succ i ih => rw [fyAux, ih, count_swapL]

theorem count_shuffle {α : Type} [DecidableEq α] (v : α) (a : List α)
    (js : Nat → Nat) : (shuffle a js).count v = a.count v :=
  count_fyAux v js a (a.length - 1)

theorem length_fyAux {α : Type} (js : Nat → Nat) :
    ∀ (a : List α) (n : Nat), (fyAux js a n).length = a.length := by
  intro a n
  induction n generalizing a with
  | zero => rfl
  | succ i ih => rw [fyAux, ih, length_swapL]

theorem length_shuffle {α : Type} (a : List α) (js : Nat → Nat) :
    (shuffle a js).length = a.length :=
  length_fyAux js a (a.length - 1)

theorem perm_shuffle {α : Type} [DecidableEq α] (a : List α) (js : Nat → Nat) :
    (shuffle a js).Perm a := by
  rw [List.perm_iff_count]
  intro v
  exact count_shuffle v a js

theorem values_makeDeckFor (count : Nat) (js : Nat → Nat) :
    (makeDeckFor count js).map (fun c => c.value)
      = shuffle (baseValues count ++ baseValues count) js := by
  unfold makeDeckFor
  rw [List.map_map]
  have : ((fun c => CardItem.value c) ∘
      (fun p : Nat × Nat =>
        ({ id := p.1 + 1, value := p.2, matched := false, flipped := false } : CardItem)))
      = Prod.snd := by
    funext p
    rfl
  rw [this, List.enum_eq_enumFrom, List.enumFrom_map_snd]

theorem count_baseValues (count v : Nat) (h1 : 1 ≤ v) (h2 : v ≤ count) :
    (baseValues count).count v = 1 := by
  have hmem : v ∈ baseValues count := by
    simp only [baseValues, List.mem_map, List.mem_range]
    exact ⟨v - 1, by omega, by omega⟩
  have hnd : (baseValues count).Nodup := by
    apply List.Nodup.map
    · intro x y hxy
      simpa using hxy
    · exact List.nodup_range count
  exact List.count_eq_one_of_mem hnd hmem

theorem length_makeDeckFor (count : Nat) (js : Nat → Nat) :
    (makeDeckFor count js).length = 2 * count := by
  unfold makeDeckFor
  rw [List.length_map, List.enum_eq_enumFrom, List.enumFrom_length, length_shuffle]
  simp [baseValues]
  omega

theorem count_values_makeDeckFor (count v : Nat) (js : Nat → Nat)
    (h1 : 1 ≤ v) (h2 : v ≤ count) :
    ((makeDeckFor count js).map (fun c => c.value)).count v = 2 := by
  rw [values_makeDeckFor, count_shuffle, List.count_append,
    count_baseValues count v h1 h2]

theorem makeDeckFor_fresh (count : Nat) (js : Nat → Nat) :
    ∀ c ∈ makeDeckFor count js, c.matched = false ∧ c.flipped = false := by
  intro c hc
  simp only [makeDeckFor, List.mem_map] at hc
  obtain ⟨p, _, rfl⟩ := hc
  exact ⟨rfl, rfl⟩

theorem perm_values_makeDeckFor (count : Nat) (js : Nat → Nat) :
    ((makeDeckFor count js).map (fun c => c.value)).Perm
      (baseValues count ++ baseValues count) := by
  rw [values_makeDeckFor]
  exact perm_shuffle _ js

theorem flipCount_cons (c : CardItem) (l : List CardItem) :
    flipCount (c :: l) = (if pending c then 1 else 0) + flipCount l := by
  by_cases h : pending c <;> simp [flipCount, List.filter_cons, h, Nat.add_comm]

theorem flipCount_map_le (l : List CardItem) (id : Nat)
    (hnd : (l.map (fun c => c.id)).Nodup) :
    flipCount (l.map (flipOne id)) ≤ flipCount l + 1 := by
  induction l with
  | nil => simp [flipCount]
  | cons c t ih =>
    simp only [List.map_cons, List.nodup_cons] at hnd
    obtain ⟨hcid, hnd2⟩ := hnd
    by_cases hc : c.id = id
    · have ht : t.map (flipOne id) = t := by
        have step : ∀ u ∈ t, flipOne id u = (fun a => a) u := by
          intro u hu
          have hne : u.id ≠ id := by
            intro hcontr
            exact hcid (by rw [← hc] at hcontr; exact (List.mem_map.mpr ⟨u, hu, hcontr⟩))
          simp [flipOne, hne]
        rw [List.map_congr_left step, List.map_id']
      rw [List.map_cons, ht, flipCount_cons, flipCount_cons]
      by_cases hp : pending (flipOne id c) <;> by_cases hq : pending c <;>
        simp [hp, hq] <;> omega
    · have hfc : flipOne id c = c := by simp [flipOne, hc]
      rw [List.map_cons, hfc, flipCount_cons, flipCount_cons]
      have := ih hnd2
      by_cases hq : pending c <;> simp [hq] <;> omega

theorem handleFlip_busy (st : CardsState) (id : Nat) (h : st.busy = true) :
    handleFlip st id = st := by
  simp [handleFlip, h]

theorem handleFlip_not_running (st : CardsState) (id : Nat)
    (h : st.running = false) : handleFlip st id = st := by
  simp [handleFlip, h]

theorem handleFlip_already (st : CardsState) (id : Nat) (card : CardItem)
    (hf : st.deck.find? (fun c => c.id == id) = Option.some card)
    (h : card.flipped = true ∨ card.matched = true) :
    handleFlip st id = st := by
  by_cases hgate : (st.busy || !st.running) = true
  · simp only [handleFlip, if_pos hgate]
  · have hcf : (card.flipped || card.matched) = true := by
      rcases h with h | h <;> simp [h]
    simp only [handleFlip, if_neg hgate, hf, if_pos hcf]

theorem handleFlip_inv (st : CardsState) (id : Nat) (hinv : CardsInv st)
    (hnd : (st.deck.map (fun c => c.id)).Nodup) :
    CardsInv (handleFlip st id) := by
  by_cases hgate : (st.busy || !st.running) = true
  · simp only [handleFlip, if_pos hgate]
    exact hinv
  · have hbusy : st.busy = false := by
      cases hb : st.busy
      · rfl
      · exact absurd (by simp [hb]) hgate
    rcases hff : st.deck.find? (fun c => c.id == id) with _ | card
    · simp only [handleFlip, if_neg hgate, hff]
      exact hinv
    · by_cases hcf : (card.flipped || card.matched) = true
      · simp only [handleFlip, if_neg hgate, hff, if_pos hcf]
        exact hinv
      · simp only [handleFlip, if_neg hgate, hff, if_neg hcf]
        have h1 : flipCount st.deck ≤ 1 := by
          rcases Nat.lt_or_ge (flipCount st.deck) 2 with h | h
          · omega
          · have h2 : flipCount st.deck = 2 := by
              have := hinv.1
              omega
            have := hinv.2 h2
            rw [hbusy] at this
            exact absurd this (by simp)
        have h2 : flipCount (st.deck.map (flipOne id)) ≤ 2 := by
          have := flipCount_map_le st.deck id hnd
          omega
        refine ⟨h2, ?_⟩
        intro hcnt
        simp [hcnt]

/-- C3: a flip is silently rejected — state returned unchanged — while
the busy lock is up, while the game is not running, when the target
card is absent, already face up, or matched, and in particular whenever
two unmatched cards are already flipped and pending resolution;
consequently the invariant "at most two cards are simultaneously
flipped-and-unmatched (and the busy lock is up when two are)" is
preserved by every flip on a deck with distinct ids. -/
theorem c3_flip_reject_spec :
    (∀ (st : CardsState) (id : Nat), st.busy = true → handleFlip st id = st) ∧
    (∀ (st : CardsState) (id : Nat), st.running = false → handleFlip st id = st) ∧
    (∀ (st : CardsState) (id : Nat) (card : CardItem),
      st.deck.find? (fun c => c.id == id) = Option.some card →
      (card.flipped = true ∨ card.matched = true) → handleFlip st id = st) ∧
    (∀ (st : CardsState) (id : Nat), CardsInv st → flipCount st.deck = 2 →
      handleFlip st id = st) ∧
    (∀ (st : CardsState) (id : Nat), CardsInv st →
      (st.deck.map (fun c => c.id)).Nodup →
      CardsInv (handleFlip st id) ∧ flipCount (handleFlip st id).deck ≤ 2) := by
  refine ⟨handleFlip_busy, handleFlip_not_running, handleFlip_already, ?_, ?_⟩
  · intro st id hinv h2
    exact handleFlip_busy st id (hinv.2 h2)
  · intro st id hinv hnd
    have h := handleFlip_inv st id hinv hnd
    exact ⟨h, h.1⟩

/-- Witness for C3: on a deck with two pending cards and the busy lock
up, a third flip leaves the state unchanged; on a fresh two-card deck
the invariant survives a flip. -/
theorem c3_flip_reject_spec_witness :
    handleFlip
      { deck := [{ id := 1, value := 1, matched := false, flipped := true },
                 { id := 2, value := 2, matched := false, flipped := true },
                 { id := 3, value := 1, matched := false, flipped := false }]
        busy := true, running := true } 3 =
      { deck := [{ id := 1, value := 1, matched := false, flipped := true },
                 { id := 2, value := 2, matched := false, flipped := true },
                 { id := 3, value := 1, matched := false, flipped := false }]
        busy := true, running := true } ∧
    CardsInv (handleFlip
      { deck := [{ id := 1, value := 1, matched := false, flipped := false },
                 { id := 2, value := 1, matched := false, flipped := false }]
        busy := false, running := true } 1) := by
  constructor
  · exact c3_flip_reject_spec.2.2.2.1
      { deck := [{ id := 1, value := 1, matched := false, flipped := true },
                 { id := 2, value := 2, matched := false, flipped := true },
                 { id := 3, value := 1, matched := false, flipped := false }]
        busy := true, running := true } 3 (by decide) (by decide)
  · exact (c3_flip_reject_spec.2.2.2.2
      { deck := [{ id := 1, value := 1, matched := false, flipped := false },
                 { id := 2, value := 1, matched := false, flipped := false }]
        busy := false, running := true } 1 (by decide) (by decide)).1

theorem resolvePair_eq_map (deck : List CardItem) (id1 id2 : Nat)
    (a b : CardItem) (ha : deck.find? (fun c => c.id == id1) = Option.some a)
    (hb : deck.find? (fun c => c.id == id2) = Option.some b) :
    resolvePair deck id1 id2 = deck.map (resolveCard id1 id2 (a.value == b.value)) := by
  simp only [resolvePair, ha, hb]

theorem resolveCard_match_target (id1 id2 : Nat) (c : CardItem)
    (h : c.id = id1 ∨ c.id = id2) :
    (resolveCard id1 id2 true c).matched = true ∧
    (resolveCard id1 id2 true c).flipped = c.flipped := by
  have hc : (c.id == id1 || c.id == id2) = true := by
    rcases h with h | h <;> simp [h]
  simp [resolveCard, hc]

theorem resolveCard_mismatch_target (id1 id2 : Nat) (c : CardItem)
    (h : c.id = id1 ∨ c.id = id2) :
    (resolveCard id1 id2 false c).flipped = false ∧
    (resolveCard id1 id2 false c).matched = c.matched := by
  have hc : (c.id == id1 || c.id == id2) = true := by
    rcases h with h | h <;> simp [h]
  simp [resolveCard, hc]

theorem resolveCard_other (id1 id2 : Nat) (m : Bool) (c : CardItem)
    (h1 : c.id ≠ id1) (h2 : c.id ≠ id2) : resolveCard id1 id2 m c = c := by
  simp [resolveCard, h1, h2]

/-- C8: a freshly generated deck for `count` pairs has `2*count` cards
whose values are a permutation of two copies of `1..count` (each value
in `1..count` appearing exactly twice) with every card unmatched and
face down; resolving two found cards of equal value marks exactly the
two targeted cards matched and leaves their face-up state, while
resolving two cards of unequal value turns exactly the two targeted
cards face down, other cards being untouched in both cases. -/
theorem c8_deck_resolution_spec :
    (∀ (count : Nat) (js : Nat → Nat),
      (makeDeckFor count js).length = 2 * count ∧
      ((makeDeckFor count js).map (fun c => c.value)).Perm
        (baseValues count ++ baseValues count) ∧
      (∀ v : Nat, 1 ≤ v → v ≤ count →
        ((makeDeckFor count js).map (fun c => c.value)).count v = 2) ∧
      (∀ c ∈ makeDeckFor count js, c.matched = false ∧ c.flipped = false)) ∧
    (∀ (deck : List CardItem) (id1 id2 : Nat) (a b : CardItem),
      deck.find? (fun c => c.id == id1) = Option.some a →
      deck.find? (fun c => c.id == id2) = Option.some b →
      (a.value = b.value →
        resolvePair deck id1 id2 = deck.map (resolveCard id1 id2 true)) ∧
      (a.value ≠ b.value →
        resolvePair deck id1 id2 = deck.map (resolveCard id1 id2 false))) ∧
    (∀ (id1 id2 : Nat) (c : CardItem),
      ((c.id = id1 ∨ c.id = id2) →
        (resolveCard id1 id2 true c).matched = true ∧
        (resolveCard id1 id2 true c).flipped = c.flipped ∧
        (resolveCard id1 id2 false c).flipped = false ∧
        (resolveCard id1 id2 false c).matched = c.matched) ∧
      (c.id ≠ id1 → c.id ≠ id2 → ∀ m : Bool, resolveCard id1 id2 m c = c)) := by
  refine ⟨?_, ?_, ?_⟩
  · intro count js
    exact ⟨length_makeDeckFor count js, perm_values_makeDeckFor count js,
      fun v h1 h2 => count_values_makeDeckFor count v js h1 h2,
      makeDeckFor_fresh count js⟩
  · intro deck id1 id2 a b ha hb
    constructor
    · intro hv
      have : (a.value == b.value) = true := by simp [hv]
      rw [resolvePair_eq_map deck id1 id2 a b ha hb, this]
    · intro hv
      have : (a.value == b.value) = false := by simp [hv]
      rw [resolvePair_eq_map deck id1 id2 a b ha hb, this]
  · intro id1 id2 c
    constructor
    · intro h
      exact ⟨(resolveCard_match_target id1 id2 c h).1,
        (resolveCard_match_target id1 id2 c h).2,
        (resolveCard_mismatch_target id1 id2 c h).1,
        (resolveCard_mismatch_target id1 id2 c h).2⟩
    · intro h1 h2 m
      exact resolveCard_other id1 id2 m c h1 h2

/-- Witness for C8: a two-pair deck has each value twice; resolving a
concrete matching pair maps `resolveCard` over the deck and marks both
cards matched. -/
theorem c8_deck_resolution_spec_witness :
    ((makeDeckFor 2 (fun _ => 0)).map (fun c => c.value)).count 1 = 2 ∧
    resolvePair [{ id := 1, value := 5, matched := false, flipped := true },
                 { id := 2, value := 5, matched := false, flipped := true }] 1 2 =
      [{ id := 1, value := 5, matched := false, flipped := true },
       { id := 2, value := 5, matched := false, flipped := true }].map
        (resolveCard 1 2 true) ∧
    (resolveCard 1 2 true
      { id := 1, value := 5, matched := false, flipped := true }).matched = true := by
  refine ⟨?_, ?_, ?_⟩
  · exact (c8_deck_resolution_spec.1 2 (fun _ => 0)).2.2.1 1 (by decide) (by decide)
  · exact ((c8_deck_resolution_spec.2.1
      [{ id := 1, value := 5, matched := false, flipped := true },
       { id := 2, value := 5, matched := false, flipped := true }] 1 2
      { id := 1, value := 5, matched := false, flipped := true }
      { id := 2, value := 5, matched := false, flipped := true }
      (by decide) (by decide)).1 (by decide))
  · exact ((c8_deck_resolution_spec.2.2 1 2
      { id := 1, value := 5, matched := false, flipped := true }).1
      (Or.inl (by decide))).1

end Cards

namespace Tanks

theorem damageAt_friendly (st : TanksState) (x y : Int) (owner : Side)
    (drop : Option PUpKind) (puid : Nat) (target : Tank)
    (hb : ¬ (x < 0 ∨ (GRID : Int) ≤ x ∨ y < 0 ∨ (GRID : Int) ≤ y))
    (hcell : cellAt st x y = Cell.empty)
    (hfind : st.tanks.find? (fun t => t.alive && t.x == x && t.y == y) =
      Option.some target)
    (hside : target.side = owner) :
    damageAt st x y owner drop puid = (DRes.blocked, st) := by
  have hcond : (owner = Side.enemy ∧ target.side = Side.enemy) ∨
      (owner = Side.player ∧ target.side = Side.player) := by
    cases owner
    · exact Or.inr ⟨rfl, hside⟩
    · exact Or.inl ⟨rfl, hside⟩
  simp only [damageAt, if_neg hb, hcell, hfind, if_pos hcond]

/-- C4: a bullet that resolves against a live tank of the bullet
owner's own faction is destroyed with no effect at all: `damageAt`
returns `blocked` with the state unchanged (so alive flags, lives,
score, and terrain are all unchanged), and the advancing bullet is
removed. -/
theorem c4_friendly_fire_spec :
    ∀ (st : TanksState) (x y : Int) (owner : Side) (drop : Option PUpKind)
      (puid : Nat) (target : Tank),
      ¬ (x < 0 ∨ (GRID : Int) ≤ x ∨ y < 0 ∨ (GRID : Int) ≤ y) →
      cellAt st x y = Cell.empty →
      st.tanks.find? (fun t => t.alive && t.x == x && t.y == y) =
        Option.some target →
      target.side = owner →
      damageAt st x y owner drop puid = (DRes.blocked, st) ∧
      (∀ b : Bullet, b.x + (dirDelta b.dir).1 = x → b.y + (dirDelta b.dir).2 = y →
        b.owner = owner → stepBullet st b drop puid = (st, Option.none)) := by
  intro st x y owner drop puid target hb hcell hfind hside
  have hd := damageAt_friendly st x y owner drop puid target hb hcell hfind hside
  refine ⟨hd, ?_⟩
  intro b hbx hby hbo
  simp only [stepBullet, hbx, hby, hbo, hd]

/-- Witness for C4: an enemy bullet reaching a live enemy tank on an
all-empty terrain is destroyed and the state is returned unchanged. -/
theorem c4_friendly_fire_spec_witness :
    damageAt
      { terrain := List.replicate 15 (List.replicate 15 Cell.empty)
        tanks := [{ id := 7, x := 2, y := 1, dir := Dir4.down,
                    side := Side.enemy, alive := true }]
        score := 0, lives := 3, level := 1, kills := 0
        running := true, paused := false, shield := 0, powerUps := [] }
      2 1 Side.enemy Option.none 0 =
      (DRes.blocked,
      { terrain := List.replicate 15 (List.replicate 15 Cell.empty)
        tanks := [{ id := 7, x := 2, y := 1, dir := Dir4.down,
                    side := Side.enemy, alive := true }]
        score := 0, lives := 3, level := 1, kills := 0
        running := true, paused := false, shield := 0, powerUps := [] }) :=
  (c4_friendly_fire_spec
    { terrain := List.replicate 15 (List.replicate 15 Cell.empty)
      tanks := [{ id := 7, x := 2, y := 1, dir := Dir4.down,
                  side := Side.enemy, alive := true }]
      score := 0, lives := 3, level := 1, kills := 0
      running := true, paused := false, shield := 0, powerUps := [] }
    2 1 Side.enemy Option.none 0
    { id := 7, x := 2, y := 1, dir := Dir4.down, side := Side.enemy, alive := true }
    (by decide) (by decide) (by decide) (by decide)).1

theorem damageAt_base (st : TanksState) (x y : Int) (owner : Side)
    (drop : Option PUpKind) (puid : Nat)
    (hb : ¬ (x < 0 ∨ (GRID : Int) ≤ x ∨ y < 0 ∨ (GRID : Int) ≤ y))
    (hcell : cellAt st x y = Cell.base) :
    damageAt st x y owner drop puid =
      (DRes.hit, { st with running := false, paused := false }) := by
  simp only [damageAt, if_neg hb, hcell]

/-- C5: a bullet advancing into the base terrain cell ends the game —
`damageAt` reports `hit` and clears the `running` flag — and the bullet
is destroyed, with lives (and score, terrain, tanks) untouched,
regardless of how many lives remain. -/
theorem c5_base_destruction_spec :
    ∀ (st : TanksState) (x y : Int) (owner : Side) (drop : Option PUpKind)
      (puid : Nat),
      ¬ (x < 0 ∨ (GRID : Int) ≤ x ∨ y < 0 ∨ (GRID : Int) ≤ y) →
      cellAt st x y = Cell.base →
      (damageAt st x y owner drop puid).1 = DRes.hit ∧
      (damageAt st x y owner drop puid).2.running = false ∧
      (damageAt st x y owner drop puid).2.lives = st.lives ∧
      (damageAt st x y owner drop puid).2.score = st.score ∧
      (damageAt st x y owner drop puid).2.terrain = st.terrain ∧
      (damageAt st x y owner drop puid).2.tanks = st.tanks ∧
      (∀ b : Bullet, b.x + (dirDelta b.dir).1 = x → b.y + (dirDelta b.dir).2 = y →
        b.owner = owner →
        stepBullet st b drop puid =
          ({ st with running := false, paused := false }, Option.none)) := by
  intro st x y owner drop puid hb hcell
  have hd := damageAt_base st x y owner drop puid hb hcell
  rw [hd]
  refine ⟨rfl, rfl, rfl, rfl, rfl, rfl, ?_⟩
  intro b hbx hby hbo
  simp only [stepBullet, hbx, hby, hbo, hd]

/-- Witness for C5: a bullet reaching the base cell at the bottom
center with 3 lives left ends the game and disappears. -/
theorem c5_base_destruction_spec_witness :
    (damageAt
      { terrain := List.replicate 14 (List.replicate 15 Cell.empty) ++
          [List.replicate 7 Cell.empty ++ Cell.base :: List.replicate 7 Cell.empty]
        tanks := []
        score := 0, lives := 3, level := 1, kills := 0
        running := true, paused := false, shield := 0, powerUps := [] }
      7 14 Side.enemy Option.none 0).2.running = false :=
  (c5_base_destruction_spec
    { terrain := List.replicate 14 (List.replicate 15 Cell.empty) ++
        [List.replicate 7 Cell.empty ++ Cell.base :: List.replicate 7 Cell.empty]
      tanks := []
      score := 0, lives := 3, level := 1, kills := 0
      running := true, paused := false, shield := 0, powerUps := [] }
    7 14 Side.enemy Option.none 0 (by decide) (by decide)).2.1

end Tanks

namespace Snake

theorem randomFood_spec (draws : List (Fin 18 × Fin 18)) (used : List Pt)
    (f : Pt) (h : randomFood draws used = Option.some f) :
    f ∉ used ∧ inGrid f := by
  unfold randomFood at h
  have hmem := List.mem_of_find?_eq_some h
  have hprop := List.find?_some h
  constructor
  · intro hin
    simp [List.contains, List.elem_eq_mem, hin] at hprop
  · obtain ⟨d, hd, rfl⟩ := List.mem_map.mp hmem
    refine ⟨?_, ?_, ?_, ?_⟩ <;> simp [mkPt, GRID]

theorem snakeTick_not_running (st : SnakeState) (draws : List (Fin 18 × Fin 18))
    (h : st.status ≠ SStatus.running) : snakeTick st draws = st := by
  simp [snakeTick, h]

theorem snakeTick_collision (st : SnakeState) (draws : List (Fin 18 × Fin 18))
    (hrun : st.status = SStatus.running) (hne : st.snake ≠ [])
    (hcol : (nextHead st).x < 0 ∨ (GRID : Int) ≤ (nextHead st).x ∨
      (nextHead st).y < 0 ∨ (GRID : Int) ≤ (nextHead st).y ∨
      nextHead st ∈ st.snake) :
    snakeTick st draws = { st with status := SStatus.ended } := by
  obtain ⟨h, t, hst⟩ := List.exists_cons_of_ne_nil hne
  have hcol2 : (nextHead st).x < 0 ∨ (GRID : Int) ≤ (nextHead st).x ∨
      (nextHead st).y < 0 ∨ (GRID : Int) ≤ (nextHead st).y ∨
      (st.snake.contains (nextHead st)) = true := by
    rcases hcol with h | h | h | h | h
    · exact Or.inl h
    · exact Or.inr (Or.inl h)
    · exact Or.inr (Or.inr (Or.inl h))
    · exact Or.inr (Or.inr (Or.inr (Or.inl h)))
    · exact Or.inr (Or.inr (Or.inr (Or.inr (by
        simp [List.contains, List.elem_eq_mem, h]))))
  rw [snakeTick]
  rw [if_pos hrun]
  rw [hst]
  rw [if_pos (by rw [← hst]; exact hcol2)]

theorem snakeTick_food (st : SnakeState) (draws : List (Fin 18 × Fin 18))
    (hrun : st.status = SStatus.running) (hne : st.snake ≠ [])
    (hcol : ¬ ((nextHead st).x < 0 ∨ (GRID : Int) ≤ (nextHead st).x ∨
      (nextHead st).y < 0 ∨ (GRID : Int) ≤ (nextHead st).y ∨
      nextHead st ∈ st.snake))
    (hf : nextHead st = st.food) :
    snakeTick st draws =
      { st with snake := nextHead st :: st.snake
                score := st.score + 10
                food := (randomFood draws (nextHead st :: st.snake)).getD st.food } := by
  obtain ⟨h, t, hst⟩ := List.exists_cons_of_ne_nil hne
  have hcol2 : ¬ ((nextHead st).x < 0 ∨ (GRID : Int) ≤ (nextHead st).x ∨
      (nextHead st).y < 0 ∨ (GRID : Int) ≤ (nextHead st).y ∨
      (st.snake.contains (nextHead st)) = true) := by
    intro hc
    apply hcol
    rcases hc with h | h | h | h | h
    · exact Or.inl h
    · exact Or.inr (Or.inl h)
    · exact Or.inr (Or.inr (Or.inl h))
    · exact Or.inr (Or.inr (Or.inr (Or.inl h)))
    · refine Or.inr (Or.inr (Or.inr (Or.inr ?_)))
      simpa [List.contains, List.elem_eq_mem] using h
  rw [snakeTick]
  rw [if_pos hrun]
  rw [hst]
  rw [if_neg (by rw [← hst]; exact hcol2)]
  rw [← hst]
  rw [if_pos hf]
  rw [hst]

theorem snakeTick_normal (st : SnakeState) (draws : List (Fin 18 × Fin 18))
    (hrun : st.status = SStatus.running) (hne : st.snake ≠ [])
    (hcol : ¬ ((nextHead st).x < 0 ∨ (GRID : Int) ≤ (nextHead st).x ∨
      (nextHead st).y < 0 ∨ (GRID : Int) ≤ (nextHead st).y ∨
      nextHead st ∈ st.snake))
    (hf : nextHead st ≠ st.food) :
    snakeTick st draws =
      { st with snake := (nextHead st :: st.snake).dropLast } := by
  obtain ⟨h, t, hst⟩ := List.exists_cons_of_ne_nil hne
  have hcol2 : ¬ ((nextHead st).x < 0 ∨ (GRID : Int) ≤ (nextHead st).x ∨
      (nextHead st).y < 0 ∨ (GRID : Int) ≤ (nextHead st).y ∨
      (st.snake.contains (nextHead st)) = true) := by
    intro hc
    apply hcol
    rcases hc with h | h | h | h | h
    · exact Or.inl h
    · exact Or.inr (Or.inl h)
    · exact Or.inr (Or.inr (Or.inl h))
    · exact Or.inr (Or.inr (Or.inr (Or.inl h)))
    · refine Or.inr (Or.inr (Or.inr (Or.inr ?_)))
      simpa [List.contains, List.elem_eq_mem] using h
  rw [snakeTick]
  rw [if_pos hrun]
  rw [hst]
  rw [if_neg (by rw [← hst]; exact hcol2)]
  rw [← hst]
  rw [if_neg hf]
  rw [hst]

theorem snakeTick_inv (st : SnakeState) (draws : List (Fin 18 × Fin 18))
    (hinv : snakeInv st) : snakeInv (snakeTick st draws) := by
  obtain ⟨hne, hnd, hgrid⟩ := hinv
  by_cases hrun : st.status = SStatus.running
  · by_cases hcol : ((nextHead st).x < 0 ∨ (GRID : Int) ≤ (nextHead st).x ∨
        (nextHead st).y < 0 ∨ (GRID : Int) ≤ (nextHead st).y ∨
        nextHead st ∈ st.snake)
    · rw [snakeTick_collision st draws hrun hne hcol]
      exact ⟨hne, hnd, hgrid⟩
    · have hnp_mem : nextHead st ∉ st.snake := fun hmem =>
        hcol (Or.inr (Or.inr (Or.inr (Or.inr hmem))))
      push_neg at hcol
      have hnp_grid : inGrid (nextHead st) :=
        ⟨hcol.1, hcol.2.1, hcol.2.2.1, hcol.2.2.2.1⟩
      by_cases hf : nextHead st = st.food
      · rw [snakeTick_food st draws hrun hne (by push_neg; exact hcol) hf]
        refine ⟨by simp, List.nodup_cons.mpr ⟨hnp_mem, hnd⟩, ?_⟩
        intro p hp
        rcases List.mem_cons.mp hp with rfl | hp
        · exact hnp_grid
        · exact hgrid p hp
      · rw [snakeTick_normal st draws hrun hne (by push_neg; exact hcol) hf]
        have hsub : (nextHead st :: st.snake).dropLast.Sublist
            (nextHead st :: st.snake) := List.dropLast_sublist _
        refine ⟨?_, ?_, ?_⟩
        · obtain ⟨h, t, hst⟩ := List.exists_cons_of_ne_nil hne
          rw [hst]
          simp
        · exact (List.nodup_cons.mpr ⟨hnp_mem, hnd⟩).sublist hsub
        · intro p hp
          rcases List.mem_cons.mp (hsub.subset hp) with rfl | hmem
          · exact hnp_grid
          · exact hgrid p hmem
  · rw [snakeTick_not_running st draws hrun]
    exact ⟨hne, hnd, hgrid⟩

theorem snakeTick_length (st : SnakeState) (draws : List (Fin 18 × Fin 18)) :
    (snakeTick st draws).snake.length = st.snake.length ∨
    (snakeTick st draws).snake.length = st.snake.length + 1 := by
  by_cases hrun : st.status = SStatus.running
  · by_cases hne : st.snake = []
    · left
      simp [snakeTick, hrun, hne]
    · by_cases hcol : ((nextHead st).x < 0 ∨ (GRID : Int) ≤ (nextHead st).x ∨
          (nextHead st).y < 0 ∨ (GRID : Int) ≤ (nextHead st).y ∨
          nextHead st ∈ st.snake)
      · left
        rw [snakeTick_collision st draws hrun hne hcol]
      · by_cases hf : nextHead st = st.food
        · right
          rw [snakeTick_food st draws hrun hne hcol hf]
          simp
        · left
          rw [snakeTick_normal st draws hrun hne hcol hf]
          simp [List.length_dropLast]
  · left
    rw [snakeTick_not_running st draws hrun]

theorem reach_inv : ∀ st : SnakeState, Reach st → snakeInv st := by
  intro st h
  induction h with
  | init food =>
    refine ⟨?_, ?_, ?_⟩
    · show initialSnake ≠ []
      decide
    · show initialSnake.Nodup
      decide
    · show ∀ p ∈ initialSnake, inGrid p
      decide
  | tick st draws hr ih => exact snakeTick_inv st draws ih
  | setDir st d hr ih => exact ih
  | setStatus st sst hr ih => exact ih

/-- C7: on a running game, a tick whose computed next head lies outside
the 18x18 grid or coincides with any existing segment of the
pre-movement snake (its tail included) transitions the status to
`ended` and leaves the snake sequence unchanged. -/
theorem c7_termination_spec :
    ∀ (st : SnakeState) (draws : List (Fin 18 × Fin 18)),
      st.status = SStatus.running → st.snake ≠ [] →
      ((nextHead st).x < 0 ∨ (GRID : Int) ≤ (nextHead st).x ∨
        (nextHead st).y < 0 ∨ (GRID : Int) ≤ (nextHead st).y ∨
        nextHead st ∈ st.snake) →
      (snakeTick st draws).status = SStatus.ended ∧
      (snakeTick st draws).snake = st.snake := by
  intro st draws hrun hne hcol
  rw [snakeTick_collision st draws hrun hne hcol]
  exact ⟨rfl, rfl⟩

/-- C6: on a running game, a tick whose next head equals the food cell
prepends the head without removing the tail (length grows by one), adds
10 points, and moves the food to the first fresh random cell not
occupied by the grown snake — a cell inside the grid and disjoint from
every segment; in particular the snake (3,3),(2,3),(1,3) moving right
onto food at (4,3) becomes (4,3),(3,3),(2,3),(1,3) of length 4 with the
relocated food off the snake. -/
theorem c6_growth_spec :
    (∀ (st : SnakeState) (draws : List (Fin 18 × Fin 18)) (f : Pt),
      st.status = SStatus.running → st.snake ≠ [] →
      ¬ ((nextHead st).x < 0 ∨ (GRID : Int) ≤ (nextHead st).x ∨
        (nextHead st).y < 0 ∨ (GRID : Int) ≤ (nextHead st).y ∨
        nextHead st ∈ st.snake) →
      nextHead st = st.food →
      randomFood draws (nextHead st :: st.snake) = Option.some f →
      (snakeTick st draws).snake = nextHead st :: st.snake ∧
      (snakeTick st draws).snake.length = st.snake.length + 1 ∧
      (snakeTick st draws).score = st.score + 10 ∧
      (snakeTick st draws).food = f ∧
      f ∉ nextHead st :: st.snake ∧ inGrid f) ∧
    (snakeTick
        { status := SStatus.running, dir := GDir.right
          snake := [{ x := 3, y := 3 }, { x := 2, y := 3 }, { x := 1, y := 3 }]
          food := { x := 4, y := 3 }, score := 0 }
        [((0 : Fin 18), (0 : Fin 18))] =
      { status := SStatus.running, dir := GDir.right
        snake := [{ x := 4, y := 3 }, { x := 3, y := 3 },
                  { x := 2, y := 3 }, { x := 1, y := 3 }]
        food := { x := 0, y := 0 }, score := 10 } ∧
      ({ x := 0, y := 0 } : Pt) ∉
        [({ x := 4, y := 3 } : Pt), { x := 3, y := 3 },
         { x := 2, y := 3 }, { x := 1, y := 3 }]) := by
  constructor
  · intro st draws f hrun hne hcol hf hrf
    have hrfs := randomFood_spec draws (nextHead st :: st.snake) f hrf
    rw [snakeTick_food st draws hrun hne hcol hf]
    refine ⟨rfl, by simp, rfl, ?_, hrfs.1, hrfs.2⟩
    simp [hrf]
  · constructor
    · decide
    · decide

/-- C10: in every reachable Snake state the segments are pairwise
distinct points inside the 18x18 grid (and the snake is never empty),
and any single tick changes the snake length by 0 or exactly +1, never
decreasing it. -/
theorem c10_invariant_spec :
    (∀ st : SnakeState, Reach st → snakeInv st) ∧
    (∀ (st : SnakeState) (draws : List (Fin 18 × Fin 18)),
      (snakeTick st draws).snake.length = st.snake.length ∨
      (snakeTick st draws).snake.length = st.snake.length + 1) :=
  ⟨reach_inv, snakeTick_length⟩

/-- Witness for C6: the spec's concrete scenario, via the general
growth theorem. -/
theorem c6_growth_spec_witness :
    (snakeTick
      { status := SStatus.running, dir := GDir.right
        snake := [{ x := 3, y := 3 }, { x := 2, y := 3 }, { x := 1, y := 3 }]
        food := { x := 4, y := 3 }, score := 0 }
      [((0 : Fin 18), (0 : Fin 18))]).score = 0 + 10 ∧
    (snakeTick
      { status := SStatus.running, dir := GDir.right
        snake := [{ x := 3, y := 3 }, { x := 2, y := 3 }, { x := 1, y := 3 }]
        food := { x := 4, y := 3 }, score := 0 }
      [((0 : Fin 18), (0 : Fin 18))]).snake.length = 3 + 1 := by
  constructor
  · exact (c6_growth_spec.1
      { status := SStatus.running, dir := GDir.right
        snake := [{ x := 3, y := 3 }, { x := 2, y := 3 }, { x := 1, y := 3 }]
        food := { x := 4, y := 3 }, score := 0 }
      [((0 : Fin 18), (0 : Fin 18))] { x := 0, y := 0 }
      (by decide) (by decide) (by decide) (by decide) (by decide)).2.2.1
  · exact (c6_growth_spec.1
      { status := SStatus.running, dir := GDir.right
        snake := [{ x := 3, y := 3 }, { x := 2, y := 3 }, { x := 1, y := 3 }]
        food := { x := 4, y := 3 }, score := 0 }
      [((0 : Fin 18), (0 : Fin 18))] { x := 0, y := 0 }
      (by decide) (by decide) (by decide) (by decide) (by decide)).2.1

/-- Witness for C7: a single-segment snake at the right wall moving
right ends the game with its body unchanged. -/
theorem c7_termination_spec_witness :
    (snakeTick
      { status := SStatus.running, dir := GDir.right
        snake := [{ x := 17, y := 3 }]
        food := { x := 4, y := 3 }, score := 0 } []).status = SStatus.ended :=
  (c7_termination_spec
    { status := SStatus.running, dir := GDir.right
      snake := [{ x := 17, y := 3 }]
      food := { x := 4, y := 3 }, score := 0 } []
    (by decide) (by decide) (by decide)).1

/-- Witness for C10: the invariant holds in the freshly reset state,
and a tick from it changes the length by 0 or 1. -/
theorem c10_invariant_spec_witness :
    snakeInv (initState { x := 9, y := 9 }) ∧
    ((snakeTick (initState { x := 9, y := 9 }) []).snake.length =
        (initState { x := 9, y := 9 }).snake.length ∨
      (snakeTick (initState { x := 9, y := 9 }) []).snake.length =
        (initState { x := 9, y := 9 }).snake.length + 1) :=
  ⟨c10_invariant_spec.1 (initState { x := 9, y := 9 })
      (Reach.init { x := 9, y := 9 }),
    c10_invariant_spec.2 (initState { x := 9, y := 9 }) []⟩

end Snake

namespace Storage

/-- C9 evaluation: with an unavailable (throwing) store, the Cards
best-moves read at mount and the Cards best-score write on win both
propagate the exception (`Except.error`), as does the Tanks comfort
preference read — contradicting the spec's requirement that every
persistence access failure be caught as a best-effort no-op — while the
Tanks comfort write, which the source does wrap in try/catch, degrades
to a no-op as required. -/
theorem c9_storage_failure_eval :
    cardsBestMovesRead throwingStore 8 = Except.error () ∧
    cardsBestMovesWrite throwingStore 8 3 = Except.error () ∧
    tanksComfortRead throwingStore = Except.error () ∧
    tanksComfortWrite throwingStore true = throwingStore := by
  refine ⟨rfl, rfl, rfl, rfl⟩

end Storage

end MiniGames
